import Mathlib

/-!
Verification development for the data-platform-status repository.

The repository polls status APIs and a warehouse-style event source, and
forwards normalized event records to a monitoring sink.  The core is the
incremental checkpointed extraction protocol in `databricks_status.py`:
six structurally identical pipelines read a watermark from a checkpoint
table, query the source for rows with extraction time in the half-open
interval (watermark, now], deliver each row, and advance the watermark to
the maximum extraction time of the batch only when every delivery
succeeded.

This file shallowly embeds that code: timestamps are natural numbers,
source rows are records carrying an identifier and an extraction-time
field, the checkpoint table is a list of rows, and the SQL statements of
`update_checkpoint`, `get_last_checkpoint` and the per-pipeline queries
are translated to pure functions on those structures.  Python values
reaching the tag normalizer are embedded as an inductive `PyVal` type and
raising code paths return `Except`.
-/

/-- A source row as seen by one extraction pipeline: `rowId` stands for
the non-time columns (it lets distinct rows carry equal timestamps) and
`eventTime` is the extraction-time column (`event_time`,
`period_start_time`, `start_time` or `change_time` depending on the
pipeline kind). -/
structure Row where
  rowId : Nat
  eventTime : Nat
deriving DecidableEq, Repr

/-- One row of the checkpoint table `main.default.batch_job_checkpoint`:
columns `monitor_type`, `table_name`, `last_processed_time`. -/
structure CheckpointEntry where
  monitorType : String
  tableName : String
  lastProcessedTime : Nat
deriving DecidableEq, Repr

/-- The checkpoint table, as the list of its rows. -/
abbrev CheckpointStore := List CheckpointEntry

/-- The WHERE clause shared by the checkpoint SQL statements:
`monitor_type = mt AND table_name = tn`. -/
def entryMatches (mt tn : String) (e : CheckpointEntry) : Bool :=
  e.monitorType == mt && e.tableName == tn

/-- The SELECT of `get_last_checkpoint`: the stored watermark for a key,
if a row for that key exists. -/
def lookupCheckpoint (store : CheckpointStore) (mt tn : String) : Option Nat :=
  (store.find? (entryMatches mt tn)).map CheckpointEntry.lastProcessedTime

/-- Embedding of `DatabricksStatusMonitor.update_checkpoint`: the SQL is
`UPDATE checkpoint_table SET last_processed_time = t WHERE monitor_type =
mt AND table_name = tn`.  A plain UPDATE rewrites every matching row and
inserts nothing when no row matches. -/
def update_checkpoint (store : CheckpointStore) (mt tn : String) (newTimestamp : Nat) :
    CheckpointStore :=
  store.map (fun e =>
    if entryMatches mt tn e then { e with lastProcessedTime := newTimestamp } else e)

/-- One day in seconds; `timedelta(days=1)` with time as seconds since an
epoch. -/
def secondsPerDay : Nat := 86400

/-- Embedding of `DatabricksStatusMonitor.get_last_checkpoint`: return the
stored watermark for the key; if none exists, insert a row whose value is
24 hours before `tNow` and return that default.  The result pairs the
returned watermark with the checkpoint table after the call. -/
def get_last_checkpoint (store : CheckpointStore) (mt tn : String) (tNow : Nat) :
    Nat × CheckpointStore :=
  match lookupCheckpoint store mt tn with
  | some t => (t, store)
  | Option.none =>
    (tNow - secondsPerDay, store ++ [⟨mt, tn, tNow - secondsPerDay⟩])

/-- The per-pipeline source query, shared by all six `process_*_events`
methods: `SELECT ... WHERE time > last_checkpoint AND time <= current_time
ORDER BY time ASC`.  The lower bound is strict, the upper bound inclusive,
and the result is ordered ascending by the extraction-time column. -/
def queryEvents (src : List Row) (lastCheckpoint tNow : Nat) : List Row :=
  List.insertionSort (fun a b => a.eventTime ≤ b.eventTime)
    (src.filter (fun r =>
      decide (lastCheckpoint < r.eventTime) && decide (r.eventTime ≤ tNow)))

/-- The delivery loop of each `process_*_events` method: call the sink on
each row in order; on the first `False` stop immediately.  Returns the
rows on which the sink was called, in order, and whether every call
returned `True`. -/
def deliverEvents (sink : Row → Bool) : List Row → List Row × Bool
  | [] => ([], true)
  | r :: rs =>
    if sink r then
      let rest := deliverEvents sink rs
      (r :: rest.1, rest.2)
    else ([r], false)

/-- Embedding of `max(event[i] for event in events)` over the
extraction-time column.  Only ever applied to non-empty batches (Python
`max` would raise on an empty one), where it equals the maximum. -/
def maxEventTime (events : List Row) : Nat :=
  events.foldl (fun m r => Nat.max m r.eventTime) 0

/-- Observable outcome of one pipeline run: the checkpoint table after
the run, the watermark read (or reset) at the start of the run, the rows
on which the sink was called in order, and whether no delivery returned
`False`. -/
structure RunResult where
  store : CheckpointStore
  watermark : Nat
  attempted : List Row
  ok : Bool
deriving Repr

/-- The generic incremental extraction engine: the control flow shared
verbatim by `process_warehouse_events`, `process_job_events`,
`process_job_task_events`, `process_query_events`, `process_audit_events`
and `process_cluster_events`.  `tNow` is the single `current_time =
datetime.utcnow()` captured at the start of the run.  With
`resetCheckpoint` the watermark is forced to `tNow` minus 24 hours via
`update_checkpoint`; otherwise it is read with `get_last_checkpoint`.
Then the source is queried over `(watermark, tNow]`; an empty batch
returns with the checkpoint unchanged; otherwise each row is delivered in
order, stopping at the first failure, and only if every delivery
succeeded is the checkpoint advanced to the maximum extraction time of
the batch. -/
def processEvents (mt tn : String) (src : List Row) (sink : Row → Bool)
    (resetCheckpoint : Bool) (tNow : Nat) (store : CheckpointStore) : RunResult :=
  let readResult :=
    if resetCheckpoint then
      (tNow - secondsPerDay, update_checkpoint store mt tn (tNow - secondsPerDay))
    else get_last_checkpoint store mt tn tNow
  let events := queryEvents src readResult.1 tNow
  if events.isEmpty then ⟨readResult.2, readResult.1, [], true⟩
  else
    let delivered := deliverEvents sink events
    if delivered.2 then
      ⟨update_checkpoint readResult.2 mt tn (maxEventTime events), readResult.1,
        delivered.1, true⟩
    else ⟨readResult.2, readResult.1, delivered.1, false⟩

/-- Instantiation of the engine for `process_warehouse_events`
(extraction time `w.event_time`). -/
def process_warehouse_events : List Row → (Row → Bool) → Bool → Nat → CheckpointStore → RunResult :=
  processEvents "warehouse_events" "system.compute.warehouse_events"

/-- Instantiation of the engine for `process_job_events`
(extraction time `r.period_start_time`). -/
def process_job_events : List Row → (Row → Bool) → Bool → Nat → CheckpointStore → RunResult :=
  processEvents "job_events" "system.lakeflow.job_run_timeline"

/-- Instantiation of the engine for `process_job_task_events`
(extraction time `t.period_start_time`). -/
def process_job_task_events : List Row → (Row → Bool) → Bool → Nat → CheckpointStore → RunResult :=
  processEvents "job_task_events" "system.lakeflow.job_task_run_timeline"

/-- Instantiation of the engine for `process_query_events`
(extraction time `start_time`). -/
def process_query_events : List Row → (Row → Bool) → Bool → Nat → CheckpointStore → RunResult :=
  processEvents "query_events" "system.query.history"

/-- Instantiation of the engine for `process_audit_events`
(extraction time `event_time`). -/
def process_audit_events : List Row → (Row → Bool) → Bool → Nat → CheckpointStore → RunResult :=
  processEvents "audit_events" "system.access.audit"

/-- Instantiation of the engine for `process_cluster_events`
(extraction time `change_time`). -/
def process_cluster_events : List Row → (Row → Bool) → Bool → Nat → CheckpointStore → RunResult :=
  processEvents "cluster_events" "system.compute.clusters"

/-- Exceptions that the embedded Python fragments can raise. -/
inductive PyError where
  | typeError : PyError
  | keyError : PyError
  | indexError : PyError
  | attributeError : PyError
deriving DecidableEq, Repr

/-- A Python value as it reaches `_convert_tags_to_dict` and
`send_to_splunk`: `None`, an integer, a string, a list, or a dict
represented as its list of key-value entries in insertion order. -/
inductive PyVal where
  | vnone : PyVal
  | vint : Int → PyVal
  | vstr : String → PyVal
  | vlist : List PyVal → PyVal
  | vdict : List (PyVal × PyVal) → PyVal
deriving Repr

/-- Structural equality on embedded Python values, as used by dict key
lookup. -/
def pyBeq : PyVal → PyVal → Bool
  | .vnone, .vnone => true
  | .vint a, .vint b => a == b
  | .vstr a, .vstr b => a == b
  | .vlist [], .vlist [] => true
  | .vlist (a :: as), .vlist (b :: bs) => pyBeq a b && pyBeq (.vlist as) (.vlist bs)
  | .vdict [], .vdict [] => true
  | .vdict ((k1, v1) :: as), .vdict ((k2, v2) :: bs) =>
    pyBeq k1 k2 && pyBeq v1 v2 && pyBeq (.vdict as) (.vdict bs)
  | _, _ => false

/-- Python truthiness for the embedded values (`if not tags`). -/
def pyTruthy : PyVal → Bool
  | .vnone => false
  | .vint n => n != 0
  | .vstr s => !s.isEmpty
  | .vlist l => !l.isEmpty
  | .vdict d => !d.isEmpty

/-- Python `len(v)`: defined for strings, lists and dicts; raises
`TypeError` on values with no length, such as integers and `None`. -/
def pyLen : PyVal → Except PyError Nat
  | .vstr s => .ok s.length
  | .vlist l => .ok l.length
  | .vdict d => .ok d.length
  | _ => .error .typeError

/-- Python `v[i]` for a natural-number index: list indexing, string
indexing (yielding a one-character string), dict lookup with the integer
key (raising `KeyError` when absent), and `TypeError` otherwise. -/
def pyGetItem (v : PyVal) (i : Nat) : Except PyError PyVal :=
  match v with
  | .vlist l =>
    match l.get? i with
    | some x => .ok x
    | Option.none => .error .indexError
  | .vstr s =>
    match s.toList.get? i with
    | some c => .ok (.vstr (String.mk [c]))
    | Option.none => .error .indexError
  | .vdict d =>
    match d.find? (fun e => pyBeq e.1 (.vint i)) with
    | some e => .ok e.2
    | Option.none => .error .keyError
  | _ => .error .typeError

/-- Insertion into a Python dict: an existing equal key has its value
replaced in place, otherwise the new entry is appended. -/
def dictInsert (d : List (PyVal × PyVal)) (k v : PyVal) : List (PyVal × PyVal) :=
  if d.any (fun e => pyBeq e.1 k) then
    d.map (fun e => if pyBeq e.1 k then (e.1, v) else e)
  else d ++ [(k, v)]

/-- The dict comprehension in `_convert_tags_to_dict`:
`{tag[0]: tag[1] for tag in tags if len(tag) == 2}`, evaluated left to
right, propagating the first exception. -/
def tagPairs (acc : List (PyVal × PyVal)) : List PyVal → Except PyError (List (PyVal × PyVal))
  | [] => .ok acc
  | t :: ts => do
    let n ← pyLen t
    if n = 2 then
      let k ← pyGetItem t 0
      let v ← pyGetItem t 1
      tagPairs (dictInsert acc k v) ts
    else tagPairs acc ts

/-- Embedding of `DatabricksStatusMonitor._convert_tags_to_dict`: falsy
input yields the empty dict, a dict is returned unchanged, a list is
converted through the comprehension above, and any other value yields the
empty dict. -/
def convert_tags_to_dict (tags : PyVal) : Except PyError PyVal :=
  if !pyTruthy tags then .ok (.vdict [])
  else
    match tags with
    | .vdict _ => .ok tags
    | .vlist l => (tagPairs [] l).map PyVal.vdict
    | _ => .ok (.vdict [])

/-- The two columns of a `system.compute.clusters` row from which
`process_cluster_events` derives its synthetic event type: `create_time`
(nullable, `event[5]`) and `change_time` (`event[21]`, always present in
the rows processed). -/
structure ClusterRow where
  createTime : Option Nat
  changeTime : Nat
deriving DecidableEq, Repr

/-- The derived field of `process_cluster_events`:
`"CLUSTER_CREATED" if event[5] == event[21] else "CLUSTER_DELETED"`.
A null `create_time` compares unequal to any timestamp. -/
def clusterEventType (row : ClusterRow) : String :=
  if row.createTime == some row.changeTime then "CLUSTER_CREATED" else "CLUSTER_DELETED"

/-- The six pipelines in the fixed order in which `main` invokes them. -/
inductive PipelineKind where
  | warehouse : PipelineKind
  | job : PipelineKind
  | jobTask : PipelineKind
  | query : PipelineKind
  | cluster : PipelineKind
  | audit : PipelineKind
deriving DecidableEq, Repr

/-- The fixed invocation order in `main`: warehouse, job, job-task,
query, cluster, audit. -/
def mainPipelineOrder : List PipelineKind :=
  [.warehouse, .job, .jobTask, .query, .cluster, .audit]

/-- Sequential execution of pipelines inside the single try block of
`main`: each pipeline either returns or raises; the first raise aborts
the sequence (the remaining pipelines are not invoked) and its message is
what the except clause logs.  Returns the list of pipelines actually
invoked, in order, and the logged error if any. -/
def runPipelineSeq (run : PipelineKind → Except String Unit) :
    List PipelineKind → List PipelineKind × Option String
  | [] => ([], Option.none)
  | k :: ks =>
    match run k with
    | .ok _ =>
      let rest := runPipelineSeq run ks
      (k :: rest.1, rest.2)
    | .error e => ([k], some e)

/-- Embedding of the pipeline-invocation portion of
`databricks_status.main`: the six `process_*_events` calls sit in one
shared `try` block whose `except` clause logs the error message. -/
def mainOrchestrator (run : PipelineKind → Except String Unit) :
    List PipelineKind × Option String :=
  runPipelineSeq run mainPipelineOrder

/-- The state that `BaseStatusMonitor.__init__` establishes: the
technology name and `status_report`, which starts as `None` and is only
ever assigned by `process_all_regions`. -/
structure BaseMonitorState where
  technology : String
  statusReport : Option PyVal
deriving Repr

/-- Embedding of `BaseStatusMonitor.__init__`. -/
def initBaseStatusMonitor (technology : String) : BaseMonitorState :=
  ⟨technology, Option.none⟩

/-- The monitor state after `DatabricksStatusMonitor.__init__`, which
calls `super().__init__("databricks")` and never assigns
`status_report` (the connection fields are irrelevant here). -/
def initDatabricksStatusMonitor : BaseMonitorState :=
  initBaseStatusMonitor "databricks"

/-- Python `d.get(k, default)` on an embedded dict. -/
def pyDictGet (d : List (PyVal × PyVal)) (k dflt : PyVal) : PyVal :=
  match d.find? (fun e => pyBeq e.1 k) with
  | some e => e.2
  | Option.none => dflt

/-- Embedding of `BaseStatusMonitor.send_to_splunk`.  Building the
payload evaluates `region_data.get("status")` (an `AttributeError` unless
`region_data` is a dict), then
`self.status_report.get("incidents", {}).get(region_name, [])` (an
`AttributeError` when `status_report` is still `None`, is not a dict, or
holds a non-dict under `"incidents"`).  The HTTP POST is commented out in
the source, so a successfully built payload is only printed and the
method returns `True`; no path returns `False`. -/
def send_to_splunk (statusReport : Option PyVal) (regionName : String)
    (regionData : PyVal) : Except PyError Bool :=
  match regionData with
  | .vdict _ =>
    match statusReport with
    | some (.vdict rep) =>
      match pyDictGet rep (.vstr "incidents") (.vdict []) with
      | .vdict incidents =>
        let _payloadIncidents := pyDictGet incidents (.vstr regionName) (.vlist [])
        .ok true
      | _ => .error .attributeError
    | _ => .error .attributeError
  | _ => .error .attributeError

/-- One component entry from a status-page API response, with the fields
that `get_component_status` reads; `Option.none` stands for an absent
key. -/
structure StatusComponent where
  groupId : Option String
  name : Option String
  status : Option String
  updatedAt : Option String
deriving DecidableEq, Repr

/-- One value of the per-region `services` mapping built by the status
pollers. -/
structure ServiceStatus where
  status : String
  lastUpdated : Option String
deriving DecidableEq, Repr

/-- The `status_info` dictionary built by the status pollers. -/
structure StatusInfo where
  status : String
  lastUpdated : Option String
  services : List (String × ServiceStatus)
deriving DecidableEq, Repr

/-- Assignment `status_info["services"][service_name] = ...` into a
Python dict keyed by service name: replace in place when the key exists,
otherwise append. -/
def upsertService (svcs : List (String × ServiceStatus)) (serviceName : String)
    (entry : ServiceStatus) : List (String × ServiceStatus) :=
  if svcs.any (fun s => s.1 == serviceName) then
    svcs.map (fun s => if s.1 == serviceName then (s.1, entry) else s)
  else svcs ++ [(serviceName, entry)]

/-- Python truthiness of an optional string (`None` and the empty string
are falsy). -/
def strTruthy : Option String → Bool
  | Option.none => false
  | some s => !s.isEmpty

/-- Lexicographic comparison of character lists, embedding the Python
string `<` used on ISO timestamps. -/
def strLtChars : List Char → List Char → Bool
  | [], [] => false
  | [], _ :: _ => true
  | _ :: _, [] => false
  | a :: as, b :: bs => if a < b then true else if b < a then false else strLtChars as bs

/-- Python string comparison `a < b`. -/
def pyStrLt (a b : String) : Bool := strLtChars a.toList b.toList

/-- Python `str.lower()`. -/
def pyLower (s : String) : String := String.mk (s.toList.map Char.toLower)

/-- The body of the loop in `SnowflakeStatusMonitor.get_component_status`
for one component: components of other groups are skipped; a matching
component is recorded under its name, the region status is recomputed
over all services recorded so far, and `last_updated` is advanced when
the component carries a more recent truthy timestamp. -/
def snowflakeComponentStep (groupId : String) (info : StatusInfo)
    (c : StatusComponent) : StatusInfo :=
  if c.groupId == some groupId then
    let serviceName := c.name.getD "Unknown Service"
    let svcs := upsertService info.services serviceName
      ⟨c.status.getD "unknown", c.updatedAt⟩
    let newStatus :=
      if svcs.all (fun s => s.2.status == "operational") then "operational" else "degraded"
    let newLast :=
      if strTruthy c.updatedAt &&
          (!strTruthy info.lastUpdated ||
            pyStrLt (info.lastUpdated.getD "") (c.updatedAt.getD "")) then
        c.updatedAt
      else info.lastUpdated
    ⟨newStatus, newLast, svcs⟩
  else info

/-- Embedding of `SnowflakeStatusMonitor.get_component_status`: fold the
per-component step over the component list, starting from
`{"status": "unknown", "last_updated": None, "services": {}}`. -/
def snowflake_get_component_status (components : List StatusComponent)
    (groupId : String) : StatusInfo :=
  components.foldl (snowflakeComponentStep groupId) ⟨"unknown", Option.none, []⟩

/-- The body of the loop in `PrefectStatusMonitor.get_component_status`
for one component: every component is recorded (its status lowercased);
the overall status is not touched inside the loop. -/
def prefectComponentStep (info : StatusInfo) (c : StatusComponent) : StatusInfo :=
  let serviceName := c.name.getD "Unknown Service"
  let componentStatus := pyLower (c.status.getD "unknown")
  let svcs := upsertService info.services serviceName ⟨componentStatus, c.updatedAt⟩
  let newLast :=
    if strTruthy c.updatedAt &&
        (!strTruthy info.lastUpdated ||
          pyStrLt (info.lastUpdated.getD "") (c.updatedAt.getD "")) then
      c.updatedAt
    else info.lastUpdated
  ⟨info.status, newLast, svcs⟩

/-- Embedding of `PrefectStatusMonitor.get_component_status`: record all
components, then set the overall status once after the loop. -/
def prefect_get_component_status (components : List StatusComponent) : StatusInfo :=
  let info := components.foldl prefectComponentStep ⟨"unknown", Option.none, []⟩
  ⟨if info.services.all (fun s => pyLower s.2.status == "operational") then
      "operational"
    else "degraded",
    info.lastUpdated, info.services⟩

/-- Invariant of the snowflake status fold: with no service recorded the
status is still the initial "unknown"; once services are recorded the
status is the all-operational check over the recorded services. -/
def statusInv (info : StatusInfo) : Prop :=
  (info.services = [] → info.status = "unknown") ∧
  (info.services ≠ [] →
    info.status = if info.services.all (fun s => s.2.status == "operational")
      then "operational" else "degraded")

/-- Tag-list elements that support both len() and integer indexing in
the comprehension: Python lists and strings. -/
def isListOrStr : PyVal → Bool
  | .vlist _ => true
  | .vstr _ => true
  | _ => false

/-- Elements the comprehension keeps: len(tag) == 2. -/
def hasLen2 : PyVal → Bool
  | .vlist es => es.length == 2
  | .vstr s => s.length == 2
  | .vdict d => d.length == 2
  | _ => false

instance : IsTotal Row (fun a b => a.eventTime ≤ b.eventTime) :=
  ⟨fun a b => Nat.le_total a.eventTime b.eventTime⟩

instance : IsTrans Row (fun a b => a.eventTime ≤ b.eventTime) :=
  ⟨fun _ _ _ h1 h2 => Nat.le_trans h1 h2⟩

/-- A row is returned by the source query exactly when it lies in the
half-open interval (checkpoint, now]. -/
theorem mem_queryEvents (src : List Row) (cp tNow : Nat) (r : Row) :
    r ∈ queryEvents src cp tNow ↔
      r ∈ src ∧ cp < r.eventTime ∧ r.eventTime ≤ tNow := by
  unfold queryEvents
  rw [(List.perm_insertionSort _ _).mem_iff, List.mem_filter]
  simp

/-- The source query returns rows ordered ascending by extraction time. -/
theorem queryEvents_sorted (src : List Row) (cp tNow : Nat) :
    (queryEvents src cp tNow).Pairwise (fun a b => a.eventTime ≤ b.eventTime) :=
  List.sorted_insertionSort _ _

/-- The batch is a permutation of the filtered source. -/
theorem queryEvents_perm (src : List Row) (cp tNow : Nat) :
    (queryEvents src cp tNow).Perm
      (src.filter (fun r => decide (cp < r.eventTime) && decide (r.eventTime ≤ tNow))) :=
  List.perm_insertionSort _ _

/-- When every delivery succeeds the loop attempts the whole batch. -/
theorem deliverEvents_all (sink : Row → Bool) (l : List Row)
    (h : ∀ r ∈ l, sink r = true) : deliverEvents sink l = (l, true) := by
  induction l with
  | nil => rfl
  | cons r rs ih =>
    have hr : sink r = true := h r (List.mem_cons_self r rs)
    simp [deliverEvents, hr, ih (fun x hx => h x (List.mem_cons_of_mem r hx))]

/-- If the loop reports success, it attempted exactly the whole batch. -/
theorem deliverEvents_of_ok (sink : Row → Bool) (l : List Row)
    (h : (deliverEvents sink l).2 = true) : deliverEvents sink l = (l, true) := by
  induction l with
  | nil => rfl
  | cons r rs ih =>
    cases hs : sink r with
    | false => simp [deliverEvents, hs] at h
    | true =>
      simp only [deliverEvents, hs, if_true] at h ⊢
      rw [ih h]

/-- When the sink accepts a prefix and rejects the next row, the loop
stops right there: the rejected row is the last one attempted. -/
theorem deliverEvents_fail (sink : Row → Bool) (pre post : List Row) (r : Row)
    (hpre : ∀ x ∈ pre, sink x = true) (hr : sink r = false) :
    deliverEvents sink (pre ++ r :: post) = (pre ++ [r], false) := by
  induction pre with
  | nil => simp [deliverEvents, hr]
  | cons x xs ih =>
    have hx : sink x = true := hpre x (List.mem_cons_self x xs)
    simp [deliverEvents, hx,
      ih (fun y hy => hpre y (List.mem_cons_of_mem x hy))]

theorem foldl_max_le (l : List Row) :
    ∀ a : Nat, a ≤ l.foldl (fun m r => Nat.max m r.eventTime) a := by
  induction l with
  | nil => intro a; exact Nat.le_refl a
  | cons x xs ih =>
    intro a
    exact Nat.le_trans (Nat.le_max_left a x.eventTime) (ih (Nat.max a x.eventTime))

theorem foldl_max_mem_le (l : List Row) :
    ∀ (a : Nat) (r : Row), r ∈ l →
      r.eventTime ≤ l.foldl (fun m r => Nat.max m r.eventTime) a := by
  induction l with
  | nil => intro a r hr; cases hr
  | cons x xs ih =>
    intro a r hr
    rcases List.mem_cons.mp hr with h | h
    · subst h
      exact Nat.le_trans (Nat.le_max_right a r.eventTime) (foldl_max_le xs _)
    · exact ih (Nat.max a x.eventTime) r h

theorem foldl_max_eq_or_mem (l : List Row) :
    ∀ a : Nat,
      l.foldl (fun m r => Nat.max m r.eventTime) a = a ∨
        ∃ r ∈ l, l.foldl (fun m r => Nat.max m r.eventTime) a = r.eventTime := by
  induction l with
  | nil => intro a; exact Or.inl rfl
  | cons x xs ih =>
    intro a
    rcases ih (Nat.max a x.eventTime) with h | h
    · rcases Nat.le_total a x.eventTime with hle | hle
      · right
        refine ⟨x, List.mem_cons_self x xs, ?_⟩
        show xs.foldl (fun m r => Nat.max m r.eventTime) (Nat.max a x.eventTime) = x.eventTime
        rw [h]
        exact max_eq_right hle
      · left
        show xs.foldl (fun m r => Nat.max m r.eventTime) (Nat.max a x.eventTime) = a
        rw [h]
        exact max_eq_left hle
    · right
      obtain ⟨r, hrm, hre⟩ := h
      exact ⟨r, List.mem_cons_of_mem x hrm, hre⟩

/-- Every row of the batch has extraction time at most the batch maximum. -/
theorem maxEventTime_ub (events : List Row) (r : Row) (hr : r ∈ events) :
    r.eventTime ≤ maxEventTime events :=
  foldl_max_mem_le events 0 r hr

/-- On a non-empty batch, `maxEventTime` is attained by some row. -/
theorem maxEventTime_mem (events : List Row) (hne : events ≠ []) :
    ∃ r ∈ events, r.eventTime = maxEventTime events := by
  match events, hne with
  | x :: xs, _ =>
    rcases foldl_max_eq_or_mem (x :: xs) 0 with h | h
    · have hz : maxEventTime (x :: xs) = 0 := h
      have hub : x.eventTime ≤ maxEventTime (x :: xs) :=
        maxEventTime_ub (x :: xs) x (List.mem_cons_self x xs)
      exact ⟨x, List.mem_cons_self x xs, by omega⟩
    · obtain ⟨r, hrm, hre⟩ := h
      exact ⟨r, hrm, hre.symm⟩

/-- Overwriting an existing checkpoint key makes a later read return the
new timestamp. -/
theorem lookup_update_checkpoint (store : CheckpointStore) (mt tn : String) (t : Nat)
    (h : (lookupCheckpoint store mt tn).isSome = true) :
    lookupCheckpoint (update_checkpoint store mt tn t) mt tn = some t := by
  induction store with
  | nil => simp [lookupCheckpoint] at h
  | cons e rest ih =>
    by_cases hm : entryMatches mt tn e = true
    · have hm2 : entryMatches mt tn { e with lastProcessedTime := t } = true := hm
      simp [lookupCheckpoint, update_checkpoint, hm, List.find?_cons_of_pos _ hm2]
    · have h2 : (lookupCheckpoint rest mt tn).isSome = true := by
        simpa [lookupCheckpoint, List.find?_cons_of_neg _ hm] using h
      have hstep := ih h2
      simp only [update_checkpoint, List.map_cons] at hstep ⊢
      rw [if_neg hm]
      simp only [lookupCheckpoint] at hstep ⊢
      rw [List.find?_cons_of_neg _ hm]
      exact hstep

/-- A plain SQL UPDATE on a key with no matching row changes nothing. -/
theorem update_checkpoint_of_absent (store : CheckpointStore) (mt tn : String) (t : Nat)
    (h : lookupCheckpoint store mt tn = Option.none) :
    update_checkpoint store mt tn t = store := by
  induction store with
  | nil => rfl
  | cons e rest ih =>
    by_cases hm : entryMatches mt tn e = true
    · exfalso
      simp [lookupCheckpoint, List.find?_cons_of_pos _ hm] at h
    · have h2 : lookupCheckpoint rest mt tn = Option.none := by
        simpa [lookupCheckpoint, List.find?_cons_of_neg _ hm] using h
      simp only [update_checkpoint, List.map_cons] at ih ⊢
      rw [if_neg hm, ih h2]

/-- A run with no reset on a key holding `cp0`, whose query returns
nothing, leaves the checkpoint table untouched and delivers nothing. -/
theorem processEvents_run_empty (mt tn : String) (src : List Row) (sink : Row → Bool)
    (tNow : Nat) (store : CheckpointStore) (cp0 : Nat)
    (hcp : lookupCheckpoint store mt tn = some cp0)
    (he : queryEvents src cp0 tNow = []) :
    processEvents mt tn src sink false tNow store = ⟨store, cp0, [], true⟩ := by
  simp [processEvents, get_last_checkpoint, hcp, he]

/-- A run with no reset on a key holding `cp0`, whose whole batch is
accepted by the sink, attempts exactly the batch and overwrites the key
with the batch maximum. -/
theorem processEvents_run_ok (mt tn : String) (src : List Row) (sink : Row → Bool)
    (tNow : Nat) (store : CheckpointStore) (cp0 : Nat)
    (hcp : lookupCheckpoint store mt tn = some cp0)
    (hne : queryEvents src cp0 tNow ≠ [])
    (hd : (deliverEvents sink (queryEvents src cp0 tNow)).2 = true) :
    processEvents mt tn src sink false tNow store =
      ⟨update_checkpoint store mt tn (maxEventTime (queryEvents src cp0 tNow)), cp0,
        queryEvents src cp0 tNow, true⟩ := by
  have hdel := deliverEvents_of_ok sink _ hd
  simp [processEvents, get_last_checkpoint, hcp, hdel, List.isEmpty_eq_false.mpr hne]

/-- A run with no reset on a key holding `cp0`, whose sink rejects the
row after an accepted prefix, attempts the prefix plus the rejected row
and leaves the checkpoint table untouched. -/
theorem processEvents_run_fail (mt tn : String) (src : List Row) (sink : Row → Bool)
    (tNow : Nat) (store : CheckpointStore) (cp0 : Nat) (pre post : List Row) (r : Row)
    (hcp : lookupCheckpoint store mt tn = some cp0)
    (hsplit : queryEvents src cp0 tNow = pre ++ r :: post)
    (hpre : ∀ x ∈ pre, sink x = true) (hr : sink r = false) :
    processEvents mt tn src sink false tNow store = ⟨store, cp0, pre ++ [r], false⟩ := by
  have hne : queryEvents src cp0 tNow ≠ [] := by
    rw [hsplit]
    simp
  have hdel : deliverEvents sink (queryEvents src cp0 tNow) = (pre ++ [r], false) := by
    rw [hsplit]
    exact deliverEvents_fail sink pre post r hpre hr
  simp [processEvents, get_last_checkpoint, hcp, hdel, List.isEmpty_eq_false.mpr hne]

/-- With no reset and a stored watermark, the run succeeds exactly when
the delivery loop over its batch does. -/
theorem processEvents_ok_iff (mt tn : String) (src : List Row) (sink : Row → Bool)
    (tNow : Nat) (store : CheckpointStore) (cp0 : Nat)
    (hcp : lookupCheckpoint store mt tn = some cp0)
    (hne : queryEvents src cp0 tNow ≠ []) :
    (processEvents mt tn src sink false tNow store).ok =
      (deliverEvents sink (queryEvents src cp0 tNow)).2 := by
  cases hd : (deliverEvents sink (queryEvents src cp0 tNow)).2 with
  | true => rw [processEvents_run_ok mt tn src sink tNow store cp0 hcp hne hd]
  | false =>
    simp [processEvents, get_last_checkpoint, hcp, List.isEmpty_eq_false.mpr hne, hd]

/-- Splitting a filter over two disjoint, jointly covering predicates
yields a permutation of the filter over the combined predicate. -/
theorem filter_append_perm_of_split (p q tgt : Row → Bool) (src : List Row)
    (hdisj : ∀ r ∈ src, ¬(p r = true ∧ q r = true))
    (hcov : ∀ r ∈ src, (p r || q r) = tgt r) :
    (src.filter p ++ src.filter q).Perm (src.filter tgt) := by
  induction src with
  | nil => simp
  | cons a l ih =>
    have ihl := ih (fun r hr => hdisj r (List.mem_cons_of_mem a hr))
      (fun r hr => hcov r (List.mem_cons_of_mem a hr))
    have hca := hcov a (List.mem_cons_self a l)
    have hda := hdisj a (List.mem_cons_self a l)
    by_cases hp : p a = true
    · have hq : q a = false := by
        cases hqv : q a with
        | false => rfl
        | true => exact absurd ⟨hp, hqv⟩ hda
      have ht : tgt a = true := by rw [← hca, hp, Bool.true_or]
      simp only [List.filter_cons, hp, hq, ht, if_true, Bool.false_eq_true, if_false]
      exact List.Perm.cons a ihl
    · have hpf : p a = false := by
        cases hpv : p a with
        | false => rfl
        | true => exact absurd hpv hp
      by_cases hq : q a = true
      · have ht : tgt a = true := by rw [← hca, hpf, hq, Bool.false_or]
        simp only [List.filter_cons, hpf, hq, ht, if_true, Bool.false_eq_true, if_false]
        exact List.Perm.trans List.perm_middle (List.Perm.cons a ihl)
      · have hqf : q a = false := by
          cases hqv : q a with
          | false => rfl
          | true => exact absurd hqv hq
        have ht : tgt a = false := by rw [← hca, hpf, hqf, Bool.false_or]
        simp only [List.filter_cons, hpf, hqf, ht, Bool.false_eq_true, if_false]
        exact ihl

/-- Claim C1: every pipeline run queries exactly the source rows whose
extraction time is strictly greater than the watermark read at the start
of the run and at most the single `now` captured at the start, ordered
ascending by that field; consequently two consecutive successful runs
with no reset attempt, between them, a permutation of the source rows
with extraction time in (initial checkpoint, final now], the two batches
being strictly separated in time, so no row is processed twice even on a
shared boundary value. -/
theorem no_gap_no_duplicate_across_runs
    (mt tn : String) (src : List Row) (sink1 sink2 : Row → Bool)
    (store : CheckpointStore) (cp0 now1 now2 : Nat)
    (hcp : lookupCheckpoint store mt tn = some cp0)
    (hnow : now1 ≤ now2)
    (hok1 : (processEvents mt tn src sink1 false now1 store).ok = true)
    (hok2 : (processEvents mt tn src sink2 false now2
      (processEvents mt tn src sink1 false now1 store).store).ok = true) :
    (∀ r, r ∈ queryEvents src cp0 now1 ↔
      r ∈ src ∧ cp0 < r.eventTime ∧ r.eventTime ≤ now1) ∧
    (queryEvents src cp0 now1).Pairwise (fun a b => a.eventTime ≤ b.eventTime) ∧
    ((processEvents mt tn src sink1 false now1 store).attempted ++
        (processEvents mt tn src sink2 false now2
          (processEvents mt tn src sink1 false now1 store).store).attempted).Perm
      (src.filter (fun r => decide (cp0 < r.eventTime) && decide (r.eventTime ≤ now2))) ∧
    ∀ r1 ∈ (processEvents mt tn src sink1 false now1 store).attempted,
      ∀ r2 ∈ (processEvents mt tn src sink2 false now2
        (processEvents mt tn src sink1 false now1 store).store).attempted,
        r1.eventTime < r2.eventTime := by
  refine ⟨mem_queryEvents src cp0 now1, queryEvents_sorted src cp0 now1, ?_⟩
  by_cases he1 : queryEvents src cp0 now1 = []
  · have hs1 : (processEvents mt tn src sink1 false now1 store).store = store := by
      rw [processEvents_run_empty mt tn src sink1 now1 store cp0 hcp he1]
    have ha1 : (processEvents mt tn src sink1 false now1 store).attempted = [] := by
      rw [processEvents_run_empty mt tn src sink1 now1 store cp0 hcp he1]
    rw [hs1] at hok2 ⊢
    rw [ha1]
    have ha2 : (processEvents mt tn src sink2 false now2 store).attempted =
        queryEvents src cp0 now2 := by
      by_cases he2 : queryEvents src cp0 now2 = []
      · rw [processEvents_run_empty mt tn src sink2 now2 store cp0 hcp he2, he2]
      · have hd2 : (deliverEvents sink2 (queryEvents src cp0 now2)).2 = true := by
          rw [← processEvents_ok_iff mt tn src sink2 now2 store cp0 hcp he2]
          exact hok2
        rw [processEvents_run_ok mt tn src sink2 now2 store cp0 hcp he2 hd2]
    rw [ha2]
    constructor
    · simp only [List.nil_append]
      exact queryEvents_perm src cp0 now2
    · intro r1 hr1 r2 hr2
      exact absurd hr1 (List.not_mem_nil r1)
  · have hd1 : (deliverEvents sink1 (queryEvents src cp0 now1)).2 = true := by
      rw [← processEvents_ok_iff mt tn src sink1 now1 store cp0 hcp he1]
      exact hok1
    have hs1 : (processEvents mt tn src sink1 false now1 store).store =
        update_checkpoint store mt tn (maxEventTime (queryEvents src cp0 now1)) := by
      rw [processEvents_run_ok mt tn src sink1 now1 store cp0 hcp he1 hd1]
    have ha1 : (processEvents mt tn src sink1 false now1 store).attempted =
        queryEvents src cp0 now1 := by
      rw [processEvents_run_ok mt tn src sink1 now1 store cp0 hcp he1 hd1]
    rw [hs1] at hok2 ⊢
    rw [ha1]
    have hcp1 : lookupCheckpoint
        (update_checkpoint store mt tn (maxEventTime (queryEvents src cp0 now1))) mt tn =
        some (maxEventTime (queryEvents src cp0 now1)) :=
      lookup_update_checkpoint store mt tn _ (by rw [hcp]; rfl)
    obtain ⟨r0, hr0m, hr0e⟩ := maxEventTime_mem _ he1
    obtain ⟨hr0src, hr0lo, hr0hi⟩ := (mem_queryEvents src cp0 now1 r0).mp hr0m
    have hcp0m1 : cp0 < maxEventTime (queryEvents src cp0 now1) := by
      rw [← hr0e]
      exact hr0lo
    have hm1now1 : maxEventTime (queryEvents src cp0 now1) ≤ now1 := by
      rw [← hr0e]
      exact hr0hi
    have ha2 : (processEvents mt tn src sink2 false now2
        (update_checkpoint store mt tn (maxEventTime (queryEvents src cp0 now1)))).attempted =
        queryEvents src (maxEventTime (queryEvents src cp0 now1)) now2 := by
      by_cases he2 : queryEvents src (maxEventTime (queryEvents src cp0 now1)) now2 = []
      · rw [processEvents_run_empty mt tn src sink2 now2 _ _ hcp1 he2, he2]
      · have hd2 : (deliverEvents sink2
            (queryEvents src (maxEventTime (queryEvents src cp0 now1)) now2)).2 = true := by
          rw [← processEvents_ok_iff mt tn src sink2 now2 _ _ hcp1 he2]
          exact hok2
        rw [processEvents_run_ok mt tn src sink2 now2 _ _ hcp1 he2 hd2]
    rw [ha2]
    constructor
    · refine ((queryEvents_perm src cp0 now1).append
        (queryEvents_perm src (maxEventTime (queryEvents src cp0 now1)) now2)).trans ?_
      apply filter_append_perm_of_split
      · intro r hr hpq
        obtain ⟨hpv, hqv⟩ := hpq
        simp only [Bool.and_eq_true, decide_eq_true_eq] at hpv hqv
        obtain ⟨hp1, hp2⟩ := hpv
        obtain ⟨hq1, hq2⟩ := hqv
        have hrin : r ∈ queryEvents src cp0 now1 :=
          (mem_queryEvents src cp0 now1 r).mpr ⟨hr, hp1, hp2⟩
        have hub := maxEventTime_ub (queryEvents src cp0 now1) r hrin
        omega
      · intro r hr
        rw [Bool.eq_iff_iff]
        simp only [Bool.or_eq_true, Bool.and_eq_true, decide_eq_true_eq]
        omega
    · intro r1 hr1 r2 hr2
      have h1 := maxEventTime_ub (queryEvents src cp0 now1) r1 hr1
      obtain ⟨h2src, h2lo, h2hi⟩ := (mem_queryEvents src _ now2 r2).mp hr2
      omega

/-- Witness for C1: a concrete warehouse-events source and checkpoint
table, two consecutive successful runs at now = 12 and now = 15. -/
theorem no_gap_no_duplicate_across_runs_witness :
    (lookupCheckpoint [⟨"warehouse_events", "system.compute.warehouse_events", 4⟩]
      "warehouse_events" "system.compute.warehouse_events" = some 4) ∧
    ((12 : Nat) ≤ 15) ∧
    ((processEvents "warehouse_events" "system.compute.warehouse_events"
      [⟨1, 9⟩, ⟨2, 5⟩, ⟨3, 12⟩, ⟨4, 15⟩, ⟨5, 3⟩] (fun _ => true) false 12
      [⟨"warehouse_events", "system.compute.warehouse_events", 4⟩]).ok = true) ∧
    ((processEvents "warehouse_events" "system.compute.warehouse_events"
      [⟨1, 9⟩, ⟨2, 5⟩, ⟨3, 12⟩, ⟨4, 15⟩, ⟨5, 3⟩] (fun _ => true) false 15
      (processEvents "warehouse_events" "system.compute.warehouse_events"
        [⟨1, 9⟩, ⟨2, 5⟩, ⟨3, 12⟩, ⟨4, 15⟩, ⟨5, 3⟩] (fun _ => true) false 12
        [⟨"warehouse_events", "system.compute.warehouse_events", 4⟩]).store).ok = true) ∧
    ((∀ r, r ∈ queryEvents [⟨1, 9⟩, ⟨2, 5⟩, ⟨3, 12⟩, ⟨4, 15⟩, ⟨5, 3⟩] 4 12 ↔
      r ∈ [⟨1, 9⟩, ⟨2, 5⟩, ⟨3, 12⟩, ⟨4, 15⟩, ⟨5, 3⟩] ∧ 4 < r.eventTime ∧ r.eventTime ≤ 12) ∧
    (queryEvents [⟨1, 9⟩, ⟨2, 5⟩, ⟨3, 12⟩, ⟨4, 15⟩, ⟨5, 3⟩] 4 12).Pairwise
      (fun a b => a.eventTime ≤ b.eventTime) ∧
    ((processEvents "warehouse_events" "system.compute.warehouse_events"
        [⟨1, 9⟩, ⟨2, 5⟩, ⟨3, 12⟩, ⟨4, 15⟩, ⟨5, 3⟩] (fun _ => true) false 12
        [⟨"warehouse_events", "system.compute.warehouse_events", 4⟩]).attempted ++
      (processEvents "warehouse_events" "system.compute.warehouse_events"
        [⟨1, 9⟩, ⟨2, 5⟩, ⟨3, 12⟩, ⟨4, 15⟩, ⟨5, 3⟩] (fun _ => true) false 15
        (processEvents "warehouse_events" "system.compute.warehouse_events"
          [⟨1, 9⟩, ⟨2, 5⟩, ⟨3, 12⟩, ⟨4, 15⟩, ⟨5, 3⟩] (fun _ => true) false 12
          [⟨"warehouse_events", "system.compute.warehouse_events", 4⟩]).store).attempted).Perm
      ([⟨1, 9⟩, ⟨2, 5⟩, ⟨3, 12⟩, ⟨4, 15⟩, ⟨5, 3⟩].filter
        (fun r => decide (4 < r.eventTime) && decide (r.eventTime ≤ 15))) ∧
    ∀ r1 ∈ (processEvents "warehouse_events" "system.compute.warehouse_events"
        [⟨1, 9⟩, ⟨2, 5⟩, ⟨3, 12⟩, ⟨4, 15⟩, ⟨5, 3⟩] (fun _ => true) false 12
        [⟨"warehouse_events", "system.compute.warehouse_events", 4⟩]).attempted,
      ∀ r2 ∈ (processEvents "warehouse_events" "system.compute.warehouse_events"
        [⟨1, 9⟩, ⟨2, 5⟩, ⟨3, 12⟩, ⟨4, 15⟩, ⟨5, 3⟩] (fun _ => true) false 15
        (processEvents "warehouse_events" "system.compute.warehouse_events"
          [⟨1, 9⟩, ⟨2, 5⟩, ⟨3, 12⟩, ⟨4, 15⟩, ⟨5, 3⟩] (fun _ => true) false 12
          [⟨"warehouse_events", "system.compute.warehouse_events", 4⟩]).store).attempted,
        r1.eventTime < r2.eventTime) :=
  ⟨by decide, by decide, by decide, by decide,
    no_gap_no_duplicate_across_runs "warehouse_events" "system.compute.warehouse_events"
      [⟨1, 9⟩, ⟨2, 5⟩, ⟨3, 12⟩, ⟨4, 15⟩, ⟨5, 3⟩] (fun _ => true) (fun _ => true)
      [⟨"warehouse_events", "system.compute.warehouse_events", 4⟩] 4 12 15
      (by decide) (by decide) (by decide) (by decide)⟩

/-- Claim C2: when the sink rejects the row after an accepted prefix of
the batch, the run stops right there (the rejected row is the last one
the sink is called on), the checkpoint table is left untouched so the
stored watermark still equals the pre-run watermark, and the run ends in
the non-raising failure state. -/
theorem run_aborts_without_advancing_checkpoint
    (mt tn : String) (src : List Row) (sink : Row → Bool) (store : CheckpointStore)
    (cp0 tNow : Nat) (pre post : List Row) (r : Row)
    (hcp : lookupCheckpoint store mt tn = some cp0)
    (hsplit : queryEvents src cp0 tNow = pre ++ r :: post)
    (hpre : ∀ x ∈ pre, sink x = true) (hr : sink r = false) :
    (processEvents mt tn src sink false tNow store).attempted = pre ++ [r] ∧
    (processEvents mt tn src sink false tNow store).store = store ∧
    lookupCheckpoint (processEvents mt tn src sink false tNow store).store mt tn
      = some cp0 ∧
    (processEvents mt tn src sink false tNow store).ok = false := by
  rw [processEvents_run_fail mt tn src sink tNow store cp0 pre post r hcp hsplit hpre hr]
  exact ⟨rfl, rfl, hcp, rfl⟩

/-- Witness for C2: a three-row batch whose second delivery fails; only
the first two rows are attempted and the stored watermark stays 4. -/
theorem run_aborts_without_advancing_checkpoint_witness :
    (lookupCheckpoint [⟨"job_events", "system.lakeflow.job_run_timeline", 4⟩]
      "job_events" "system.lakeflow.job_run_timeline" = some 4) ∧
    (queryEvents [⟨1, 5⟩, ⟨2, 9⟩, ⟨3, 12⟩] 4 12 = [⟨1, 5⟩] ++ ⟨2, 9⟩ :: [⟨3, 12⟩]) ∧
    (∀ x ∈ [(⟨1, 5⟩ : Row)], (fun y => decide (y.eventTime < 9)) x = true) ∧
    ((fun y => decide (y.eventTime < 9)) (⟨2, 9⟩ : Row) = false) ∧
    ((processEvents "job_events" "system.lakeflow.job_run_timeline"
        [⟨1, 5⟩, ⟨2, 9⟩, ⟨3, 12⟩] (fun y => decide (y.eventTime < 9)) false 12
        [⟨"job_events", "system.lakeflow.job_run_timeline", 4⟩]).attempted
      = [⟨1, 5⟩] ++ [⟨2, 9⟩] ∧
    (processEvents "job_events" "system.lakeflow.job_run_timeline"
        [⟨1, 5⟩, ⟨2, 9⟩, ⟨3, 12⟩] (fun y => decide (y.eventTime < 9)) false 12
        [⟨"job_events", "system.lakeflow.job_run_timeline", 4⟩]).store
      = [⟨"job_events", "system.lakeflow.job_run_timeline", 4⟩] ∧
    lookupCheckpoint (processEvents "job_events" "system.lakeflow.job_run_timeline"
        [⟨1, 5⟩, ⟨2, 9⟩, ⟨3, 12⟩] (fun y => decide (y.eventTime < 9)) false 12
        [⟨"job_events", "system.lakeflow.job_run_timeline", 4⟩]).store
      "job_events" "system.lakeflow.job_run_timeline" = some 4 ∧
    (processEvents "job_events" "system.lakeflow.job_run_timeline"
        [⟨1, 5⟩, ⟨2, 9⟩, ⟨3, 12⟩] (fun y => decide (y.eventTime < 9)) false 12
        [⟨"job_events", "system.lakeflow.job_run_timeline", 4⟩]).ok = false) :=
  ⟨by decide, by decide, by decide, by decide,
    run_aborts_without_advancing_checkpoint "job_events" "system.lakeflow.job_run_timeline"
      [⟨1, 5⟩, ⟨2, 9⟩, ⟨3, 12⟩] (fun y => decide (y.eventTime < 9))
      [⟨"job_events", "system.lakeflow.job_run_timeline", 4⟩] 4 12
      [⟨1, 5⟩] [⟨3, 12⟩] ⟨2, 9⟩ (by decide) (by decide) (by decide) (by decide)⟩

/-- Claim C3: after a successful run on a non-empty batch the stored
watermark equals the maximum extraction time of the batch (a value
attained by some batch row and bounding all of them, not the wall-clock
now used as query bound), and it is at least the pre-run watermark. -/
theorem checkpoint_advances_to_batch_max
    (mt tn : String) (src : List Row) (sink : Row → Bool) (store : CheckpointStore)
    (cp0 tNow : Nat)
    (hcp : lookupCheckpoint store mt tn = some cp0)
    (hne : queryEvents src cp0 tNow ≠ [])
    (hok : (processEvents mt tn src sink false tNow store).ok = true) :
    lookupCheckpoint (processEvents mt tn src sink false tNow store).store mt tn =
      some (maxEventTime (queryEvents src cp0 tNow)) ∧
    (∃ r ∈ queryEvents src cp0 tNow,
      r.eventTime = maxEventTime (queryEvents src cp0 tNow)) ∧
    (∀ r ∈ queryEvents src cp0 tNow,
      r.eventTime ≤ maxEventTime (queryEvents src cp0 tNow)) ∧
    cp0 ≤ maxEventTime (queryEvents src cp0 tNow) := by
  have hd : (deliverEvents sink (queryEvents src cp0 tNow)).2 = true := by
    rw [← processEvents_ok_iff mt tn src sink tNow store cp0 hcp hne]
    exact hok
  rw [processEvents_run_ok mt tn src sink tNow store cp0 hcp hne hd]
  obtain ⟨r0, hr0m, hr0e⟩ := maxEventTime_mem _ hne
  obtain ⟨hr0src, hr0lo, hr0hi⟩ := (mem_queryEvents src cp0 tNow r0).mp hr0m
  refine ⟨?_, ⟨r0, hr0m, hr0e⟩, fun r hrm => maxEventTime_ub _ r hrm, ?_⟩
  · exact lookup_update_checkpoint store mt tn _ (by rw [hcp]; rfl)
  · omega

/-- Witness for C3: a successful two-row run; the stored watermark
becomes 10, the batch maximum, not the query bound 12. -/
theorem checkpoint_advances_to_batch_max_witness :
    (lookupCheckpoint [⟨"query_events", "system.query.history", 4⟩]
      "query_events" "system.query.history" = some 4) ∧
    (queryEvents [⟨1, 7⟩, ⟨2, 10⟩] 4 12 ≠ []) ∧
    ((processEvents "query_events" "system.query.history" [⟨1, 7⟩, ⟨2, 10⟩]
      (fun _ => true) false 12 [⟨"query_events", "system.query.history", 4⟩]).ok = true) ∧
    (lookupCheckpoint (processEvents "query_events" "system.query.history" [⟨1, 7⟩, ⟨2, 10⟩]
        (fun _ => true) false 12 [⟨"query_events", "system.query.history", 4⟩]).store
      "query_events" "system.query.history"
      = some (maxEventTime (queryEvents [⟨1, 7⟩, ⟨2, 10⟩] 4 12)) ∧
    (∃ r ∈ queryEvents [⟨1, 7⟩, ⟨2, 10⟩] 4 12,
      r.eventTime = maxEventTime (queryEvents [⟨1, 7⟩, ⟨2, 10⟩] 4 12)) ∧
    (∀ r ∈ queryEvents [⟨1, 7⟩, ⟨2, 10⟩] 4 12,
      r.eventTime ≤ maxEventTime (queryEvents [⟨1, 7⟩, ⟨2, 10⟩] 4 12)) ∧
    4 ≤ maxEventTime (queryEvents [⟨1, 7⟩, ⟨2, 10⟩] 4 12)) :=
  ⟨by decide, by decide, by decide,
    checkpoint_advances_to_batch_max "query_events" "system.query.history"
      [⟨1, 7⟩, ⟨2, 10⟩] (fun _ => true) [⟨"query_events", "system.query.history", 4⟩] 4 12
      (by decide) (by decide) (by decide)⟩

/-- Counterexample for C4: on an empty checkpoint table the SQL UPDATE
issued by `update_checkpoint` matches no row and inserts none, so after
setting a key that had no checkpoint row a read does not return the
timestamp that was set, refuting upsert-by-key semantics. -/
theorem update_checkpoint_not_upsert_cex :
    update_checkpoint [] "warehouse_events" "system.compute.warehouse_events" 42 = [] ∧
    lookupCheckpoint (update_checkpoint [] "warehouse_events"
        "system.compute.warehouse_events" 42)
      "warehouse_events" "system.compute.warehouse_events" ≠ some 42 :=
  ⟨rfl, by decide⟩

/-- Claim C4 amended: `update_checkpoint` overwrites the stored watermark
unconditionally for a key that already has a checkpoint row, and a read
of that key then returns the new timestamp; but it has plain UPDATE, not
upsert, semantics: when no row exists for the key the statement matches
nothing and the table is unchanged. -/
theorem update_checkpoint_overwrites_existing_key (store : CheckpointStore)
    (mt tn : String) (t : Nat) :
    ((lookupCheckpoint store mt tn).isSome = true →
      lookupCheckpoint (update_checkpoint store mt tn t) mt tn = some t) ∧
    (lookupCheckpoint store mt tn = Option.none →
      update_checkpoint store mt tn t = store) :=
  ⟨lookup_update_checkpoint store mt tn t, update_checkpoint_of_absent store mt tn t⟩

/-- Witness for the amended C4: overwriting an existing key makes a read
return 42; updating a missing key leaves the empty table empty. -/
theorem update_checkpoint_overwrites_existing_key_witness :
    ((lookupCheckpoint [⟨"audit_events", "system.access.audit", 7⟩]
        "audit_events" "system.access.audit").isSome = true ∧
      lookupCheckpoint (update_checkpoint [⟨"audit_events", "system.access.audit", 7⟩]
          "audit_events" "system.access.audit" 42) "audit_events" "system.access.audit"
        = some 42) ∧
    (lookupCheckpoint [] "audit_events" "system.access.audit" = Option.none ∧
      update_checkpoint [] "audit_events" "system.access.audit" 42 = []) :=
  ⟨⟨by decide,
      (update_checkpoint_overwrites_existing_key
        [⟨"audit_events", "system.access.audit", 7⟩] "audit_events"
        "system.access.audit" 42).1 (by decide)⟩,
    ⟨by decide,
      (update_checkpoint_overwrites_existing_key [] "audit_events"
        "system.access.audit" 42).2 (by decide)⟩⟩

theorem runPipelineSeq_all_ok (run : PipelineKind → Except String Unit)
    (l : List PipelineKind) (h : ∀ k ∈ l, run k = .ok ()) :
    runPipelineSeq run l = (l, Option.none) := by
  induction l with
  | nil => rfl
  | cons k ks ih =>
    have hk := h k (List.mem_cons_self k ks)
    simp [runPipelineSeq, hk, ih (fun x hx => h x (List.mem_cons_of_mem k hx))]

theorem runPipelineSeq_fail (run : PipelineKind → Except String Unit)
    (pre post : List PipelineKind) (k : PipelineKind) (e : String)
    (hpre : ∀ x ∈ pre, run x = .ok ()) (hk : run k = .error e) :
    runPipelineSeq run (pre ++ k :: post) = (pre ++ [k], some e) := by
  induction pre with
  | nil => simp [runPipelineSeq, hk]
  | cons x xs ih =>
    have hx := hpre x (List.mem_cons_self x xs)
    simp [runPipelineSeq, hx, ih (fun y hy => hpre y (List.mem_cons_of_mem x hy))]

/-- Counterexample for C5: with a run function on which only the first
pipeline (warehouse) raises, the orchestrator invokes nothing after it:
the job pipeline, next in the fixed order, is not executed in the same
invocation, refuting per-pipeline failure isolation. -/
theorem orchestrator_no_isolation_cex :
    (mainOrchestrator (fun k =>
      if k = PipelineKind.warehouse then .error "boom" else .ok ())).1
      = [PipelineKind.warehouse] ∧
    PipelineKind.job ∉ (mainOrchestrator (fun k =>
      if k = PipelineKind.warehouse then .error "boom" else .ok ())).1 :=
  ⟨rfl, by decide⟩

/-- Claim C5 amended: `main` invokes the six pipelines in a fixed order
inside one shared try block whose except clause logs the error: when
every pipeline returns, all six execute in order with no error logged;
when a pipeline raises after an all-successful prefix, the pipelines
before it executed, the raising pipeline is the last one invoked, its
message is caught and logged at the process level, and the pipelines
after it do not execute in that invocation. -/
theorem orchestrator_single_try_block (run : PipelineKind → Except String Unit) :
    ((∀ k ∈ mainPipelineOrder, run k = .ok ()) →
      mainOrchestrator run = (mainPipelineOrder, Option.none)) ∧
    ∀ pre k e post, mainPipelineOrder = pre ++ k :: post →
      (∀ x ∈ pre, run x = .ok ()) → run k = .error e →
      mainOrchestrator run = (pre ++ [k], some e) := by
  constructor
  · intro h
    exact runPipelineSeq_all_ok run mainPipelineOrder h
  · intro pre k e post hsplit hpre hk
    unfold mainOrchestrator
    rw [hsplit]
    exact runPipelineSeq_fail run pre post k e hpre hk

/-- Witness for the amended C5: the job pipeline raises; warehouse ran
before it, the error is logged, and the remaining four never run. -/
theorem orchestrator_single_try_block_witness :
    (mainPipelineOrder = [PipelineKind.warehouse] ++ PipelineKind.job ::
      [PipelineKind.jobTask, PipelineKind.query, PipelineKind.cluster,
        PipelineKind.audit]) ∧
    (∀ x ∈ [PipelineKind.warehouse],
      (fun k => if k = PipelineKind.job then (.error "job failed" : Except String Unit)
        else .ok ()) x = .ok ()) ∧
    ((fun k => if k = PipelineKind.job then (.error "job failed" : Except String Unit)
      else .ok ()) PipelineKind.job = .error "job failed") ∧
    mainOrchestrator (fun k =>
        if k = PipelineKind.job then .error "job failed" else .ok ())
      = ([PipelineKind.warehouse] ++ [PipelineKind.job], some "job failed") :=
  ⟨rfl, fun x hx => by rcases List.mem_singleton.mp hx with rfl; rfl, rfl,
    (orchestrator_single_try_block _).2 [PipelineKind.warehouse] PipelineKind.job
      "job failed"
      [PipelineKind.jobTask, PipelineKind.query, PipelineKind.cluster, PipelineKind.audit]
      rfl (fun x hx => by rcases List.mem_singleton.mp hx with rfl; rfl) rfl⟩

/-- Every successful result of the tag normalizer is a dict. -/
theorem convert_tags_ok_is_dict (x y : PyVal) (h : convert_tags_to_dict x = .ok y) :
    ∃ d, y = .vdict d := by
  cases x with
  | vnone => exact ⟨[], by simpa [convert_tags_to_dict, pyTruthy] using h.symm⟩
  | vint n =>
    refine ⟨[], ?_⟩
    by_cases hz : pyTruthy (.vint n) = true
    · simpa [convert_tags_to_dict, hz] using h.symm
    · simp only [Bool.not_eq_true] at hz
      simpa [convert_tags_to_dict, hz] using h.symm
  | vstr s =>
    refine ⟨[], ?_⟩
    by_cases hz : pyTruthy (.vstr s) = true
    · simpa [convert_tags_to_dict, hz] using h.symm
    · simp only [Bool.not_eq_true] at hz
      simpa [convert_tags_to_dict, hz] using h.symm
  | vdict d =>
    by_cases hz : pyTruthy (.vdict d) = true
    · exact ⟨d, by simpa [convert_tags_to_dict, hz] using h.symm⟩
    · simp only [Bool.not_eq_true] at hz
      exact ⟨[], by simpa [convert_tags_to_dict, hz] using h.symm⟩
  | vlist l =>
    by_cases hz : pyTruthy (.vlist l) = true
    · simp only [convert_tags_to_dict, hz, Bool.not_true, if_false] at h
      cases hres : tagPairs [] l with
      | ok d =>
        rw [hres] at h
        exact ⟨d, by simpa [Except.map] using h.symm⟩
      | error e =>
        rw [hres] at h
        simp [Except.map] at h
    · simp only [Bool.not_eq_true] at hz
      exact ⟨[], by simpa [convert_tags_to_dict, hz] using h.symm⟩

/-- The tag normalizer returns any dict unchanged. -/
theorem convert_tags_dict_id (d : List (PyVal × PyVal)) :
    convert_tags_to_dict (.vdict d) = .ok (.vdict d) := by
  cases d with
  | nil => rfl
  | cons e rest => rfl

theorem list_len2 {α : Type} (es : List α) (h : es.length = 2) : ∃ k v, es = [k, v] := by
  cases es with
  | nil => simp at h
  | cons k rest =>
    cases rest with
    | nil => simp at h
    | cons v rest2 =>
      cases rest2 with
      | nil => exact ⟨k, v, rfl⟩
      | cons w rest3 => simp [List.length] at h

/-- The dict comprehension maps a list of well-formed two-element pairs
with pairwise distinct keys, none already present in the accumulator, to
the corresponding entries appended in order. -/
theorem tagPairs_of_pairs (ps : List (PyVal × PyVal)) :
    ∀ acc : List (PyVal × PyVal),
      (∀ p ∈ ps, ∀ e ∈ acc, pyBeq e.1 p.1 = false) →
      ps.Pairwise (fun a b => pyBeq a.1 b.1 = false) →
      tagPairs acc (ps.map (fun p => PyVal.vlist [p.1, p.2])) = .ok (acc ++ ps) := by
  induction ps with
  | nil =>
    intro acc _ _
    simp [tagPairs]
  | cons p ps ih =>
    intro acc hAcc hPW
    obtain ⟨hPWhead, hPWtail⟩ := List.pairwise_cons.mp hPW
    have hins : dictInsert acc p.1 p.2 = acc ++ [(p.1, p.2)] := by
      unfold dictInsert
      rw [if_neg]
      intro hc
      obtain ⟨e, he, hbe⟩ := List.any_eq_true.mp hc
      rw [hAcc p (List.mem_cons_self p ps) e he] at hbe
      exact Bool.false_ne_true hbe
    have hstep : tagPairs acc ((p :: ps).map (fun q => PyVal.vlist [q.1, q.2])) =
        tagPairs (dictInsert acc p.1 p.2)
          (ps.map (fun q => PyVal.vlist [q.1, q.2])) := rfl
    rw [hstep, hins]
    have hAcc2 : ∀ q ∈ ps, ∀ e ∈ acc ++ [(p.1, p.2)], pyBeq e.1 q.1 = false := by
      intro q hq e he
      rcases List.mem_append.mp he with h1 | h1
      · exact hAcc q (List.mem_cons_of_mem p hq) e h1
      · rcases List.mem_singleton.mp h1 with rfl
        exact hPWhead q hq
    rw [ih (acc ++ [(p.1, p.2)]) hAcc2 hPWtail]
    simp

/-- Claim C6: the tag normalizer maps falsy input (None, empty list,
empty string) to the empty dict, returns a dict unchanged, converts a
list of two-element pairs to the dict pairing each first element with
its second (here stated for pairwise-distinct keys, where the resulting
dict is exactly the pair list), and is idempotent: feeding any
successful output back in returns it unchanged. -/
theorem convert_tags_normalization :
    convert_tags_to_dict .vnone = .ok (.vdict []) ∧
    convert_tags_to_dict (.vlist []) = .ok (.vdict []) ∧
    convert_tags_to_dict (.vstr "") = .ok (.vdict []) ∧
    (∀ d, convert_tags_to_dict (.vdict d) = .ok (.vdict d)) ∧
    (∀ ps : List (PyVal × PyVal), ps.Pairwise (fun a b => pyBeq a.1 b.1 = false) →
      convert_tags_to_dict (.vlist (ps.map (fun p => PyVal.vlist [p.1, p.2])))
        = .ok (.vdict ps)) ∧
    ∀ x y, convert_tags_to_dict x = .ok y → convert_tags_to_dict y = .ok y := by
  refine ⟨rfl, rfl, rfl, convert_tags_dict_id, ?_, ?_⟩
  · intro ps hPW
    cases ps with
    | nil => rfl
    | cons p rest =>
      have hpairs := tagPairs_of_pairs (p :: rest) []
        (by intro q hq e he; cases he) hPW
      rw [List.map_cons] at hpairs
      simp only [convert_tags_to_dict, List.map_cons, pyTruthy, List.isEmpty_cons,
        Bool.not_false, Bool.not_true, Bool.false_eq_true, if_false]
      rw [hpairs]
      rfl
  · intro x y h
    obtain ⟨d, rfl⟩ := convert_tags_ok_is_dict x y h
    exact convert_tags_dict_id d

/-- Witness for C6: the spec example [["a","1"],["b","2"]] normalizes to
the two-entry mapping, and feeding the result back returns it unchanged. -/
theorem convert_tags_normalization_witness :
    (([(PyVal.vstr "a", PyVal.vstr "1"), (PyVal.vstr "b", PyVal.vstr "2")] :
        List (PyVal × PyVal)).Pairwise (fun a b => pyBeq a.1 b.1 = false)) ∧
    convert_tags_to_dict (.vlist [.vlist [.vstr "a", .vstr "1"],
        .vlist [.vstr "b", .vstr "2"]])
      = .ok (.vdict [(.vstr "a", .vstr "1"), (.vstr "b", .vstr "2")]) ∧
    convert_tags_to_dict (.vdict [(.vstr "a", .vstr "1"), (.vstr "b", .vstr "2")])
      = .ok (.vdict [(.vstr "a", .vstr "1"), (.vstr "b", .vstr "2")]) := by
  have hpw : (([(PyVal.vstr "a", PyVal.vstr "1"), (PyVal.vstr "b", PyVal.vstr "2")] :
      List (PyVal × PyVal)).Pairwise (fun a b => pyBeq a.1 b.1 = false)) := by
    simp [pyBeq]
  have h2 := convert_tags_normalization.2.2.2.2.1
    [(PyVal.vstr "a", PyVal.vstr "1"), (PyVal.vstr "b", PyVal.vstr "2")] hpw
  exact ⟨hpw, h2, convert_tags_normalization.2.2.2.2.2 _ _ h2⟩

/-- Counterexample for C7: a tag list holding the integer 5; `len(tag)`
raises TypeError on it, which propagates out of the normalizer instead
of the element being silently dropped. -/
theorem convert_tags_raises_cex :
    convert_tags_to_dict (.vlist [.vint 5]) = .error .typeError := rfl

/-- On a list whose elements are all lists or strings the comprehension
never raises, and removing the malformed (length other than 2) elements
does not change its result. -/
theorem tagPairs_total_on_seq (l : List PyVal) :
    ∀ acc : List (PyVal × PyVal), (∀ t ∈ l, isListOrStr t = true) →
      (∃ d, tagPairs acc l = .ok d) ∧
      tagPairs acc l = tagPairs acc (l.filter hasLen2) := by
  induction l with
  | nil =>
    intro acc _
    exact ⟨⟨acc, rfl⟩, rfl⟩
  | cons t ts ih =>
    intro acc h
    have ht := h t (List.mem_cons_self t ts)
    have hts : ∀ x ∈ ts, isListOrStr x = true :=
      fun x hx => h x (List.mem_cons_of_mem t hx)
    cases t with
    | vnone => simp [isListOrStr] at ht
    | vint n => simp [isListOrStr] at ht
    | vdict d => simp [isListOrStr] at ht
    | vlist es =>
      by_cases h2 : es.length = 2
      · obtain ⟨k, v, rfl⟩ := list_len2 es h2
        have hstep : tagPairs acc (PyVal.vlist [k, v] :: ts) =
            tagPairs (dictInsert acc k v) ts := rfl
        have hfil : (PyVal.vlist [k, v] :: ts).filter hasLen2 =
            PyVal.vlist [k, v] :: ts.filter hasLen2 := by
          simp [List.filter_cons, hasLen2]
        obtain ⟨⟨d, hd⟩, heq⟩ := ih (dictInsert acc k v) hts
        refine ⟨⟨d, by rw [hstep]; exact hd⟩, ?_⟩
        rw [hfil, hstep]
        have hstep2 : tagPairs acc (PyVal.vlist [k, v] :: ts.filter hasLen2) =
            tagPairs (dictInsert acc k v) (ts.filter hasLen2) := rfl
        rw [hstep2]
        exact heq
      · have hstep : tagPairs acc (PyVal.vlist es :: ts) = tagPairs acc ts := by
          simp [tagPairs, pyLen, Bind.bind, Except.bind, h2]
        have hfil : (PyVal.vlist es :: ts).filter hasLen2 = ts.filter hasLen2 := by
          simp [List.filter_cons, hasLen2, h2]
        obtain ⟨⟨d, hd⟩, heq⟩ := ih acc hts
        rw [hstep, hfil]
        exact ⟨⟨d, hd⟩, heq⟩
    | vstr s =>
      by_cases h2 : s.length = 2
      · obtain ⟨c0, c1, hcs⟩ := list_len2 s.toList h2
        have hdata : s.data = [c0, c1] := hcs
        have hstep : tagPairs acc (PyVal.vstr s :: ts) =
            tagPairs (dictInsert acc (.vstr (String.mk [c0]))
              (.vstr (String.mk [c1]))) ts := by
          simp [tagPairs, pyLen, pyGetItem, hdata, Bind.bind, Except.bind, h2]
        have hfil : (PyVal.vstr s :: ts).filter hasLen2 =
            PyVal.vstr s :: ts.filter hasLen2 := by
          simp [List.filter_cons, hasLen2, h2]
        obtain ⟨⟨d, hd⟩, heq⟩ := ih (dictInsert acc (.vstr (String.mk [c0]))
          (.vstr (String.mk [c1]))) hts
        refine ⟨⟨d, by rw [hstep]; exact hd⟩, ?_⟩
        rw [hfil, hstep]
        have hstep2 : tagPairs acc (PyVal.vstr s :: ts.filter hasLen2) =
            tagPairs (dictInsert acc (.vstr (String.mk [c0]))
              (.vstr (String.mk [c1]))) (ts.filter hasLen2) := by
          simp [tagPairs, pyLen, pyGetItem, hdata, Bind.bind, Except.bind, h2]
        rw [hstep2]
        exact heq
      · have hstep : tagPairs acc (PyVal.vstr s :: ts) = tagPairs acc ts := by
          simp [tagPairs, pyLen, Bind.bind, Except.bind, h2]
        have hfil : (PyVal.vstr s :: ts).filter hasLen2 = ts.filter hasLen2 := by
          simp [List.filter_cons, hasLen2, h2]
        obtain ⟨⟨d, hd⟩, heq⟩ := ih acc hts
        rw [hstep, hfil]
        exact ⟨⟨d, hd⟩, heq⟩

/-- Claim C7 amended: the tag normalizer is total on tag lists whose
elements all support len(), that is, are lists or strings: it returns a
mapping and silently drops malformed elements (length other than 2), the
result being unchanged when they are removed; but an element with no
length, such as a number, makes len() raise a TypeError that propagates
to the caller. -/
theorem convert_tags_total_on_seq_elements (l : List PyVal)
    (h : ∀ t ∈ l, isListOrStr t = true) :
    (∃ d, convert_tags_to_dict (.vlist l) = .ok (.vdict d)) ∧
    convert_tags_to_dict (.vlist l)
      = convert_tags_to_dict (.vlist (l.filter hasLen2)) := by
  cases l with
  | nil => exact ⟨⟨[], rfl⟩, rfl⟩
  | cons t ts =>
    obtain ⟨⟨d, hd⟩, heq⟩ := tagPairs_total_on_seq (t :: ts) [] h
    have hL : convert_tags_to_dict (.vlist (t :: ts)) =
        Except.map PyVal.vdict (tagPairs [] (t :: ts)) := rfl
    constructor
    · refine ⟨d, ?_⟩
      rw [hL, hd]
      rfl
    · rw [hL, heq]
      cases hf : (t :: ts).filter hasLen2 with
      | nil => rfl
      | cons u us => rfl

/-- Witness for the amended C7: a list with a one-element list, a
well-formed pair and a one-character string; the malformed elements are
dropped without error. -/
theorem convert_tags_total_on_seq_elements_witness :
    (∀ t ∈ [PyVal.vlist [.vstr "a"], PyVal.vlist [.vstr "k", .vstr "v"],
        PyVal.vstr "x"], isListOrStr t = true) ∧
    (∃ d, convert_tags_to_dict (.vlist [PyVal.vlist [.vstr "a"],
        PyVal.vlist [.vstr "k", .vstr "v"], PyVal.vstr "x"]) = .ok (.vdict d)) ∧
    convert_tags_to_dict (.vlist [PyVal.vlist [.vstr "a"],
        PyVal.vlist [.vstr "k", .vstr "v"], PyVal.vstr "x"])
      = convert_tags_to_dict (.vlist ([PyVal.vlist [.vstr "a"],
        PyVal.vlist [.vstr "k", .vstr "v"], PyVal.vstr "x"].filter hasLen2)) :=
  ⟨by decide,
    (convert_tags_total_on_seq_elements _ (by decide)).1,
    (convert_tags_total_on_seq_elements _ (by decide)).2⟩

/-- Counterexample for C8: a cluster row whose creation and change
timestamps coincide carries the derived value "CLUSTER_CREATED", not the
literal "created" the claim states. -/
theorem cluster_event_type_literal_cex :
    clusterEventType ⟨some 5, 5⟩ = "CLUSTER_CREATED" ∧
    clusterEventType ⟨some 5, 5⟩ ≠ "created" :=
  ⟨rfl, by decide⟩

/-- Claim C8 amended: the synthetic event type of a processed cluster
row is computed from the creation-time and change-time columns only: it
is "CLUSTER_CREATED" when the creation timestamp equals the change
timestamp and "CLUSTER_DELETED" when they differ (a null creation
timestamp counts as different); the spec describes these two variants as
created versus deleted. -/
theorem cluster_event_type_amended (row : ClusterRow) :
    (row.createTime = some row.changeTime → clusterEventType row = "CLUSTER_CREATED") ∧
    (row.createTime ≠ some row.changeTime → clusterEventType row = "CLUSTER_DELETED") := by
  constructor
  · intro h
    simp [clusterEventType, h]
  · intro h
    simp [clusterEventType, h]

/-- Witness for the amended C8: equal timestamps derive
"CLUSTER_CREATED"; distinct ones derive "CLUSTER_DELETED". -/
theorem cluster_event_type_amended_witness :
    ((some 5 : Option Nat) = some 5 ∧
      clusterEventType ⟨some 5, 5⟩ = "CLUSTER_CREATED") ∧
    ((some 7 : Option Nat) ≠ some 9 ∧
      clusterEventType ⟨some 7, 9⟩ = "CLUSTER_DELETED") :=
  ⟨⟨rfl, (cluster_event_type_amended ⟨some 5, 5⟩).1 rfl⟩,
    ⟨by decide, (cluster_event_type_amended ⟨some 7, 9⟩).2 (by decide)⟩⟩

/-- Recording a service into the services dict never leaves it empty. -/
theorem upsertService_ne_nil (svcs : List (String × ServiceStatus)) (n : String)
    (e : ServiceStatus) : upsertService svcs n e ≠ [] := by
  cases svcs with
  | nil => simp [upsertService]
  | cons a l =>
    unfold upsertService
    split
    · simp
    · simp

theorem snowflakeStep_inv (gid : String) (info : StatusInfo) (c : StatusComponent)
    (h : statusInv info) : statusInv (snowflakeComponentStep gid info c) := by
  by_cases hm : (c.groupId == some gid) = true
  · have hstep : snowflakeComponentStep gid info c =
        ⟨(if (upsertService info.services (c.name.getD "Unknown Service")
              ⟨c.status.getD "unknown", c.updatedAt⟩).all
              (fun s => s.2.status == "operational")
            then "operational" else "degraded"),
          (if strTruthy c.updatedAt &&
              (!strTruthy info.lastUpdated ||
                pyStrLt (info.lastUpdated.getD "") (c.updatedAt.getD "")) then
            c.updatedAt
          else info.lastUpdated),
          upsertService info.services (c.name.getD "Unknown Service")
            ⟨c.status.getD "unknown", c.updatedAt⟩⟩ := by
      simp [snowflakeComponentStep, hm]
    rw [hstep]
    constructor
    · intro hserv
      exact absurd hserv (upsertService_ne_nil _ _ _)
    · intro _
      rfl
  · have hstep : snowflakeComponentStep gid info c = info := by
      simp [snowflakeComponentStep, hm]
    rw [hstep]
    exact h

theorem foldl_snowflakeStep_inv (gid : String) (comps : List StatusComponent) :
    ∀ info, statusInv info →
      statusInv (comps.foldl (snowflakeComponentStep gid) info) := by
  induction comps with
  | nil => intro info h; exact h
  | cons c cs ih =>
    intro info h
    exact ih _ (snowflakeStep_inv gid info c h)

theorem foldl_snowflakeStep_ne_nil (gid : String) (comps : List StatusComponent) :
    ∀ info, info.services ≠ [] →
      (comps.foldl (snowflakeComponentStep gid) info).services ≠ [] := by
  induction comps with
  | nil => intro info h; exact h
  | cons c cs ih =>
    intro info h
    apply ih
    by_cases hm : (c.groupId == some gid) = true
    · have hs : (snowflakeComponentStep gid info c).services =
          upsertService info.services (c.name.getD "Unknown Service")
            ⟨c.status.getD "unknown", c.updatedAt⟩ := by
        simp [snowflakeComponentStep, hm]
      rw [hs]
      exact upsertService_ne_nil _ _ _
    · have hs : snowflakeComponentStep gid info c = info := by
        simp [snowflakeComponentStep, hm]
      rw [hs]
      exact h

theorem foldl_snowflakeStep_match_ne_nil (gid : String) (comps : List StatusComponent) :
    ∀ info, (∃ c ∈ comps, (c.groupId == some gid) = true) →
      (comps.foldl (snowflakeComponentStep gid) info).services ≠ [] := by
  induction comps with
  | nil =>
    intro info h
    obtain ⟨c, hc, _⟩ := h
    cases hc
  | cons c cs ih =>
    intro info h
    obtain ⟨c2, hc2, hm2⟩ := h
    rcases List.mem_cons.mp hc2 with rfl | hmem
    · apply foldl_snowflakeStep_ne_nil gid cs (snowflakeComponentStep gid info c2)
      have hs : (snowflakeComponentStep gid info c2).services =
          upsertService info.services (c2.name.getD "Unknown Service")
            ⟨c2.status.getD "unknown", c2.updatedAt⟩ := by
        simp [snowflakeComponentStep, hm2]
      rw [hs]
      exact upsertService_ne_nil _ _ _
    · exact ih (snowflakeComponentStep gid info c) ⟨c2, hmem, hm2⟩

theorem foldl_snowflakeStep_no_match (gid : String) (comps : List StatusComponent) :
    ∀ info, (∀ c ∈ comps, (c.groupId == some gid) = false) →
      comps.foldl (snowflakeComponentStep gid) info = info := by
  induction comps with
  | nil => intro info _; rfl
  | cons c cs ih =>
    intro info h
    have hc := h c (List.mem_cons_self c cs)
    have hstep : snowflakeComponentStep gid info c = info := by
      simp [snowflakeComponentStep, hc]
    show cs.foldl (snowflakeComponentStep gid) (snowflakeComponentStep gid info c) = info
    rw [hstep]
    exact ih info (fun x hx => h x (List.mem_cons_of_mem c hx))

/-- Counterexample for C9: with zero components recorded for the region
group, the snowflake region status is "unknown": it is neither
"operational", although every (zero) recorded service is vacuously
operational, nor "degraded". -/
theorem region_status_zero_services_cex :
    (snowflake_get_component_status [] "4pbr6y23kkht").status = "unknown" ∧
    ¬(((snowflake_get_component_status [] "4pbr6y23kkht").status = "operational") ↔
      (∀ s ∈ (snowflake_get_component_status [] "4pbr6y23kkht").services,
        s.2.status = "operational")) ∧
    (snowflake_get_component_status [] "4pbr6y23kkht").status ≠ "degraded" :=
  ⟨rfl, by decide, by decide⟩

/-- Claim C9 amended: for the snowflake poller, when at least one
component belongs to the region group the region status is "operational"
or "degraded", and it is "operational" exactly when every recorded
constituent service has status "operational"; when no component belongs
to the group the result keeps the initial "unknown" status with no
services.  For the prefect poller the property holds for every component
list, the empty one included, with statuses compared lowercased. -/
theorem region_status_operational_iff (components : List StatusComponent)
    (groupId : String) :
    ((∃ c ∈ components, (c.groupId == some groupId) = true) →
      ((snowflake_get_component_status components groupId).status = "operational" ∨
        (snowflake_get_component_status components groupId).status = "degraded") ∧
      ((snowflake_get_component_status components groupId).status = "operational" ↔
        ∀ s ∈ (snowflake_get_component_status components groupId).services,
          s.2.status = "operational")) ∧
    ((∀ c ∈ components, (c.groupId == some groupId) = false) →
      snowflake_get_component_status components groupId = ⟨"unknown", Option.none, []⟩) ∧
    ((prefect_get_component_status components).status = "operational" ∨
      (prefect_get_component_status components).status = "degraded") ∧
    ((prefect_get_component_status components).status = "operational" ↔
      ∀ s ∈ (prefect_get_component_status components).services,
        pyLower s.2.status = "operational") := by
  refine ⟨?_, ?_, ?_, ?_⟩
  · intro hex
    unfold snowflake_get_component_status
    have hinv : statusInv (components.foldl (snowflakeComponentStep groupId)
        ⟨"unknown", Option.none, []⟩) :=
      foldl_snowflakeStep_inv groupId components _
        ⟨fun _ => rfl, fun hne => absurd rfl hne⟩
    have hne := foldl_snowflakeStep_match_ne_nil groupId components
      ⟨"unknown", Option.none, []⟩ hex
    have hst := hinv.2 hne
    constructor
    · rw [hst]
      split
      · exact Or.inl rfl
      · exact Or.inr rfl
    · rw [hst]
      by_cases hall : ((components.foldl (snowflakeComponentStep groupId)
          ⟨"unknown", Option.none, []⟩).services.all
            (fun s => s.2.status == "operational")) = true
      · rw [if_pos hall]
        constructor
        · intro _ s hs
          simpa using List.all_eq_true.mp hall s hs
        · intro _
          rfl
      · rw [if_neg hall]
        constructor
        · intro hq
          exact absurd hq (by decide)
        · intro hforall
          exfalso
          apply hall
          rw [List.all_eq_true]
          intro s hs
          simpa using hforall s hs
  · intro hnone
    exact foldl_snowflakeStep_no_match groupId components _ hnone
  · have hp : (prefect_get_component_status components).status =
        (if (components.foldl prefectComponentStep
            ⟨"unknown", Option.none, []⟩).services.all
            (fun s => pyLower s.2.status == "operational")
          then "operational" else "degraded") := rfl
    rw [hp]
    split
    · exact Or.inl rfl
    · exact Or.inr rfl
  · have hp : (prefect_get_component_status components).status =
        (if (components.foldl prefectComponentStep
            ⟨"unknown", Option.none, []⟩).services.all
            (fun s => pyLower s.2.status == "operational")
          then "operational" else "degraded") := rfl
    have hps : (prefect_get_component_status components).services =
        (components.foldl prefectComponentStep ⟨"unknown", Option.none, []⟩).services :=
      rfl
    rw [hp, hps]
    by_cases hall : ((components.foldl prefectComponentStep
        ⟨"unknown", Option.none, []⟩).services.all
          (fun s => pyLower s.2.status == "operational")) = true
    · rw [if_pos hall]
      constructor
      · intro _ s hs
        simpa using List.all_eq_true.mp hall s hs
      · intro _
        rfl
    · rw [if_neg hall]
      constructor
      · intro hq
        exact absurd hq (by decide)
      · intro hforall
        exfalso
        apply hall
        rw [List.all_eq_true]
        intro s hs
        simpa using hforall s hs

/-- Witness for the amended C9: one operational component in the group
makes the region operational, and the recorded service statuses agree. -/
theorem region_status_operational_iff_witness :
    (∃ c ∈ [(⟨some "4pbr6y23kkht", some "Database", some "operational",
        Option.none⟩ : StatusComponent)], (c.groupId == some "4pbr6y23kkht") = true) ∧
    (((snowflake_get_component_status [⟨some "4pbr6y23kkht", some "Database",
        some "operational", Option.none⟩] "4pbr6y23kkht").status = "operational" ∨
      (snowflake_get_component_status [⟨some "4pbr6y23kkht", some "Database",
        some "operational", Option.none⟩] "4pbr6y23kkht").status = "degraded") ∧
    ((snowflake_get_component_status [⟨some "4pbr6y23kkht", some "Database",
        some "operational", Option.none⟩] "4pbr6y23kkht").status = "operational" ↔
      ∀ s ∈ (snowflake_get_component_status [⟨some "4pbr6y23kkht", some "Database",
        some "operational", Option.none⟩] "4pbr6y23kkht").services,
        s.2.status = "operational")) :=
  ⟨by decide,
    (region_status_operational_iff [⟨some "4pbr6y23kkht", some "Database",
      some "operational", Option.none⟩] "4pbr6y23kkht").1 (by decide)⟩

/-- Claim C10: the Databricks monitor construction leaves status_report
as None; every delivery call of its event pipelines therefore raises an
AttributeError instead of returning a boolean, so a False return, the
condition the pipelines guard on, is unreachable from send_to_splunk for
any arguments; and whenever status_report holds a mapping (whose
incidents entry, always a dict in generated reports, is one) the stubbed
sender returns True. -/
theorem send_to_splunk_databricks_raises :
    initDatabricksStatusMonitor.statusReport = Option.none ∧
    (∀ (regionName : String) (regionData : PyVal),
      send_to_splunk initDatabricksStatusMonitor.statusReport regionName regionData
        = .error .attributeError) ∧
    (∀ (rep rd : List (PyVal × PyVal)) (regionName : String)
        (incidents : List (PyVal × PyVal)),
      pyDictGet rep (.vstr "incidents") (.vdict []) = .vdict incidents →
      send_to_splunk (some (.vdict rep)) regionName (.vdict rd) = .ok true) ∧
    ∀ (sr : Option PyVal) (rn : String) (rd : PyVal),
      send_to_splunk sr rn rd ≠ .ok false := by
  refine ⟨rfl, ?_, ?_, ?_⟩
  · intro rn rd
    cases rd <;> rfl
  · intro rep rd rn incidents hinc
    simp [send_to_splunk, hinc]
  · intro sr rn rd
    cases rd with
    | vnone => simp [send_to_splunk]
    | vint n => simp [send_to_splunk]
    | vstr s => simp [send_to_splunk]
    | vlist l => simp [send_to_splunk]
    | vdict d =>
      match sr with
      | Option.none => simp [send_to_splunk]
      | some PyVal.vnone => simp [send_to_splunk]
      | some (PyVal.vint n) => simp [send_to_splunk]
      | some (PyVal.vstr s) => simp [send_to_splunk]
      | some (PyVal.vlist l) => simp [send_to_splunk]
      | some (PyVal.vdict rep) =>
        cases hg : pyDictGet rep (.vstr "incidents") (.vdict []) with
        | vnone => simp [send_to_splunk, hg]
        | vint n => simp [send_to_splunk, hg]
        | vstr s => simp [send_to_splunk, hg]
        | vlist l => simp [send_to_splunk, hg]
        | vdict i => simp [send_to_splunk, hg]

/-- Witness for C10: the empty report dict has a (default) dict of
incidents, and the stubbed sender returns True on it. -/
theorem send_to_splunk_databricks_raises_witness :
    (pyDictGet [] (.vstr "incidents") (.vdict []) = .vdict []) ∧
    send_to_splunk (some (.vdict [])) "NA" (.vdict []) = .ok true :=
  ⟨rfl, send_to_splunk_databricks_raises.2.2.1 [] [] "NA" [] rfl⟩
